import Mathlib

/-!
Verification of the code-rescue-tool pipeline (planner, run-result loader and
the mutable-default fixer) against its natural-language specification.

The Python sources under src/code_rescue are shallowly embedded below:
pure string manipulation is translated directly; results of the standard
library parser ast.parse are modeled as an explicit syntax-tree value passed
to the embedded functions (a value of type Option PyModule: none models a
SyntaxError); Python machine floats (the confidence field) are modeled as
exact rationals; Python exceptions raised by the embedded code itself
(IndexError on list indexing, type errors of the loader) are modeled with
Except.  Source offsets recorded in syntax-tree nodes are byte offsets in
CPython; the model treats them as character offsets, which coincides on the
ASCII inputs used throughout.
-/

namespace CodeRescue

/-- Whitespace test used by the embedding for the Python regex class \s and
for str.strip and friends, restricted to the ASCII whitespace characters. -/
def isPySpace (c : Char) : Bool :=
  c = ' ' ∨ c = '\t' ∨ c = '\n' ∨ c = '\r' ∨ c = Char.ofNat 11 ∨ c = Char.ofNat 12

/-- Word-character test for the Python regex class \w (ASCII model). -/
def isWordChar (c : Char) : Bool :=
  (('a' ≤ c ∧ c ≤ 'z') ∨ ('A' ≤ c ∧ c ≤ 'Z') ∨ ('0' ≤ c ∧ c ≤ '9') ∨ c = '_')

/-- Accumulator step for pySplitlinesKeepends: collects the current line
(in reverse) and cuts after every newline character. -/
def splitLinesAux : List Char → List Char → List String
  | acc, [] => if acc.isEmpty then [] else [String.mk acc.reverse]
  | acc, c :: rest =>
    if c = '\n' then String.mk (c :: acc).reverse :: splitLinesAux [] rest
    else splitLinesAux (c :: acc) rest

/-- Python str.splitlines(keepends=True), modeling the newline character as
the only line terminator (the concrete inputs of this development contain no
other terminators). -/
def pySplitlinesKeepends (s : String) : List String :=
  splitLinesAux [] s.toList

/-- Python str.lstrip(): drop leading whitespace. -/
def pyLstrip (s : String) : String :=
  String.mk (s.toList.dropWhile isPySpace)

/-- Python str.rstrip(): drop trailing whitespace. -/
def pyRstrip (s : String) : String :=
  String.mk (s.toList.reverse.dropWhile isPySpace).reverse

/-- Python str.strip(). -/
def pyStrip (s : String) : String := pyRstrip (pyLstrip s)

/-- Leading-whitespace prefix of a line; the source computes it as
line[:len(line) - len(line.lstrip())]. -/
def leadingWS (s : String) : String :=
  String.mk (s.toList.takeWhile isPySpace)

/-- Python endswith(':') after rstrip, as used by get_function_body_indent. -/
def rstripEndsWithColon (s : String) : Bool :=
  (pyRstrip s).toList.getLast? = some ':'

/-- Membership test for a character in a string (Python: char in line). -/
def strContainsChar (s : String) (c : Char) : Bool :=
  s.toList.contains c

/-- Whether needle occurs as a contiguous substring of hay (Python: in). -/
def containsSub (needle hay : List Char) : Bool :=
  (List.range (hay.length + 1)).any (fun i => needle.isPrefixOf (hay.drop i))

/-- Python str.count for non-overlapping occurrences, scanning left to
right and skipping the length of the needle after each hit. -/
def countSubAux (needle : List Char) : Nat → List Char → Nat
  | _, [] => if needle.isEmpty then 1 else 0
  | 0, _ => 0
  | fuel + 1, hay@(_ :: rest) =>
    if needle ≠ [] ∧ needle.isPrefixOf hay then
      1 + countSubAux needle fuel (hay.drop needle.length)
    else countSubAux needle fuel rest

/-- Python str.count (non-overlapping); an empty needle counts every gap. -/
def pyCount (hay needle : String) : Nat :=
  if needle.toList.isEmpty then hay.toList.length + 1
  else countSubAux needle.toList (hay.length + 1) hay.toList

/-- Python list indexing, including the negative-index wraparound;
none models an IndexError. -/
def pyGet (l : List α) (i : Int) : Option α :=
  if 0 ≤ i then l.get? i.toNat
  else if i.natAbs ≤ l.length then l.get? (l.length - i.natAbs)
  else none

/-- Python enumerate(xs, start), producing (index, element) pairs. -/
def pyEnumerate (start : Nat) : List α → List (Nat × α)
  | [] => []
  | x :: xs => (start, x) :: pyEnumerate (start + 1) xs

/-- Insertion step of the stable sort modeling Python sorted: the inserted
element (which occurs earlier in the input) goes before the first element it
compares less-or-equal to, so equal keys keep their input order. -/
def insertLe (le : α → α → Bool) (x : α) : List α → List α
  | [] => [x]
  | y :: ys => if le x y then x :: y :: ys else y :: insertLe le x ys

/-- Stable sort modeling Python sorted(xs, key=...): Python guarantees a
stable sort, and every stable sort agrees with stable insertion sort. -/
def pyStableSort (le : α → α → Bool) : List α → List α
  | [] => []
  | x :: xs => insertLe le x (pyStableSort le xs)

/-!  Syntax-tree fragment.

The embedded functions only inspect function-definition nodes (their line
number and their arguments record) and, inside default values, only the node
kind, emptiness, and source location.  A parse result is therefore modeled as
the list of FunctionDef and AsyncFunctionDef nodes of the tree in ast.walk
order, each carrying the fields the code reads.  Expression locations carry
the 1-based line numbers and 0-based column offsets CPython records. -/

/-- Source span of an expression node: (lineno, col_offset) to
(end_lineno, end_col_offset), lines 1-based, columns 0-based exclusive end.
CPython populates these on every parsed expression since 3.8, so the model
makes them total. -/
structure Loc where
  lineno : Nat
  col : Nat
  endLineno : Nat
  endCol : Nat
deriving DecidableEq, Repr

/-- Default-value expression shapes distinguished by the fixer: list, dict
and set literals (only element count and span are consulted), calls whose
callee is a plain name (list()/dict()/set()/list(range(...))), calls with any
other callee, and every other expression kind. -/
inductive PyExpr where
  | listE (eltCount : Nat) (loc : Loc)
  | dictE (loc : Loc)
  | setE (loc : Loc)
  | callNameE (fid : String) (argCount : Nat) (loc : Loc)
  | callOtherE (loc : Loc)
  | otherE
deriving DecidableEq, Repr

/-- Arguments record of a function definition (ast.arguments), with the
positional-only parameters CPython stores separately from args; the
embedded code, like the source, never reads posonlyargs.  defaults spans the
tails of posonlyargs ++ args; kw_defaults has one entry (possibly None) per
keyword-only parameter. -/
structure PyArgumentsRec where
  posonlyargs : List String
  args : List String
  defaults : List PyExpr
  kwonlyargs : List String
  kw_defaults : List (Option PyExpr)
deriving DecidableEq, Repr

/-- A FunctionDef or AsyncFunctionDef node: the declaration line and the
arguments record. -/
structure PyFunctionDef where
  lineno : Int
  args : PyArgumentsRec
deriving DecidableEq, Repr

/-- A parsed module, as the list of function-definition nodes in ast.walk
order. -/
abbrev PyModule := List PyFunctionDef

/-!  Embedding of src/code_rescue/fixers/mutable_default.py. -/

/-- Embeds ast.get_source_segment as called through _get_source_segment:
slice the keepends-split lines of the source between (lineno, col) and
(end_lineno, end_col).  Offsets are byte offsets in CPython; on the ASCII
sources of this development they equal character offsets.  The AttributeError
branch of the source wrapper is dead for parser-produced nodes, whose end
locations are always populated, so the model returns the segment directly. -/
def getSourceSegment (source : String) (loc : Loc) : String :=
  let lines := pySplitlinesKeepends source
  if loc.endLineno = loc.lineno then
    String.mk ((((lines.getD (loc.lineno - 1) "").toList).drop loc.col).take (loc.endCol - loc.col))
  else
    let first := String.mk (((lines.getD (loc.lineno - 1) "").toList).drop loc.col)
    let middle := (lines.drop loc.lineno).take (loc.endLineno - 1 - loc.lineno)
    let last := String.mk (((lines.getD (loc.endLineno - 1) "").toList).take loc.endCol)
    String.join (first :: middle ++ [last])

/-- Embeds _reconstruct_list: an empty list literal is canonicalized to the
two-character text even when the source spells it with internal whitespace;
a non-empty one is reconstructed verbatim from its source span. -/
def reconstruct_list (eltCount : Nat) (loc : Loc) (source : String) : String :=
  if eltCount = 0 then "[]" else getSourceSegment source loc

/-- Result triple of the locate step: (param_name, default_repr, mutable_type). -/
abbrev MutParam := String × String × String

/-- One iteration of the positional-defaults loop of
find_mutable_default_params: the branch structure mirrors the chain of
isinstance tests; args[offset + i] is read only inside a qualifying branch,
and a failing index (possible when positional-only parameters make the
offset negative) is the raised IndexError. -/
def posDefaultStep (source : String) (args : List String) (offset : Int) (i : Nat) :
    PyExpr → Except String (Option MutParam)
  | .listE n loc =>
    match pyGet args (offset + i) with
    | some p => .ok (some (p, reconstruct_list n loc source, "list"))
    | none => .error "IndexError"
  | .dictE _ =>
    match pyGet args (offset + i) with
    | some p => .ok (some (p, "{}", "dict"))
    | none => .error "IndexError"
  | .setE _ =>
    match pyGet args (offset + i) with
    | some p => .ok (some (p, "set()", "set"))
    | none => .error "IndexError"
  | .callNameE fid nargs loc =>
    if fid = "list" ∧ nargs = 0 then
      match pyGet args (offset + i) with
      | some p => .ok (some (p, "[]", "list"))
      | none => .error "IndexError"
    else if fid = "dict" ∧ nargs = 0 then
      match pyGet args (offset + i) with
      | some p => .ok (some (p, "{}", "dict"))
      | none => .error "IndexError"
    else if fid = "set" ∧ nargs = 0 then
      match pyGet args (offset + i) with
      | some p => .ok (some (p, "set()", "set"))
      | none => .error "IndexError"
    else if fid = "list" ∧ nargs ≠ 0 then
      match pyGet args (offset + i) with
      | some p => .ok (some (p, getSourceSegment source loc, "list"))
      | none => .error "IndexError"
    else .ok none
  | .callOtherE _ => .ok none
  | .otherE => .ok none

/-- The positional-defaults loop (for i, default in enumerate(defaults)). -/
def posDefaultsLoop (source : String) (args : List String) (offset : Int) :
    Nat → List PyExpr → Except String (List MutParam)
  | _, [] => .ok []
  | i, d :: ds => do
    let r ← posDefaultStep source args offset i d
    let rest ← posDefaultsLoop source args offset (i + 1) ds
    .ok (r.toList ++ rest)

/-- One iteration of the keyword-only loop: None defaults are skipped, and
only list, dict and set literals are recognized there (constructor calls are
not, unlike in the positional loop). -/
def kwDefaultStep (source : String) (kwonly : List String) (i : Nat) :
    Option PyExpr → Except String (Option MutParam)
  | none => .ok none
  | some (.listE n loc) =>
    match pyGet kwonly (Int.ofNat i) with
    | some p => .ok (some (p, reconstruct_list n loc source, "list"))
    | none => .error "IndexError"
  | some (.dictE _) =>
    match pyGet kwonly (Int.ofNat i) with
    | some p => .ok (some (p, "{}", "dict"))
    | none => .error "IndexError"
  | some (.setE _) =>
    match pyGet kwonly (Int.ofNat i) with
    | some p => .ok (some (p, "set()", "set"))
    | none => .error "IndexError"
  | some _ => .ok none

/-- The keyword-only loop (for i, default in enumerate(kw_defaults)). -/
def kwDefaultsLoop (source : String) (kwonly : List String) :
    Nat → List (Option PyExpr) → Except String (List MutParam)
  | _, [] => .ok []
  | i, d :: ds => do
    let r ← kwDefaultStep source kwonly i d
    let rest ← kwDefaultsLoop source kwonly (i + 1) ds
    .ok (r.toList ++ rest)

/-- Parameters collected from one matching function definition: positional
defaults first (offset = len(args) - len(defaults) right-aligns them inside
args), then keyword-only defaults. -/
def funcMutParams (source : String) (f : PyFunctionDef) : Except String (List MutParam) := do
  let offset : Int := (f.args.args.length : Int) - (f.args.defaults.length : Int)
  let pos ← posDefaultsLoop source f.args.args offset 0 f.args.defaults
  let kw ← kwDefaultsLoop source f.args.kwonlyargs 0 f.args.kw_defaults
  .ok (pos ++ kw)

/-- The walk over the tree: results accumulate across every function node
whose lineno equals line_start. -/
def findLoop (source : String) (line_start : Int) :
    List PyFunctionDef → Except String (List MutParam)
  | [] => .ok []
  | f :: fs => do
    let cur ← if f.lineno = line_start then funcMutParams source f else .ok []
    let rest ← findLoop source line_start fs
    .ok (cur ++ rest)

/-- Embeds find_mutable_default_params(source, line_start).  The ast.parse
call is modeled by the parsed argument: none is the SyntaxError branch, which
returns the (still empty) results list. -/
def find_mutable_default_params (parsed : Option PyModule) (source : String)
    (line_start : Int) : Except String (List MutParam) :=
  match parsed with
  | none => .ok []
  | some tree => findLoop source line_start tree

/-!  The signature rewrite.  The two regular expressions built by
apply_mutable_default_fix have the fixed shapes

  (\b NAME \s* : \s* [^=]+ \s* = \s*) DEFAULT   and   (\b NAME \s* = \s*) DEFAULT

with NAME and DEFAULT re.escape-quoted, and are applied with re.sub, which
replaces every non-overlapping occurrence left to right with group 1
followed by the text None.  The matcher below implements exactly these two
shapes: both patterns are deterministic, because [^=]+ cannot cross the
first unquoted = and every DEFAULT begins with a non-whitespace character. -/

/-- Match the literal needle at the head of s, returning the rest. -/
def dropLit : List Char → List Char → Option (List Char)
  | [], s => some s
  | _ :: _, [] => none
  | n :: ns, c :: cs => if n = c then dropLit ns cs else none

/-- Attempt to match one of the two substitution patterns at the current
position; prev is the character just before the position (none at the line
start) for the word-boundary test.  Returns the group-1 text and the rest of
the line after the whole match. -/
def tryMatchPat (annotated : Bool) (name default : List Char) (prev : Option Char)
    (s : List Char) : Option (List Char × List Char) :=
  if name = [] then none
  else if (match prev with | none => false | some c => isWordChar c) then none
  else do
    let s1 ← dropLit name s
    let ws1 := s1.takeWhile isPySpace
    let s2 := s1.dropWhile isPySpace
    if annotated then do
      let s3 ← match s2 with | ':' :: r => some r | _ => none
      let gap := s3.takeWhile (fun c => c ≠ '=')
      let s4 := s3.dropWhile (fun c => c ≠ '=')
      if gap = [] then none
      else do
        let s5 ← match s4 with | '=' :: r => some r | _ => none
        let ws2 := s5.takeWhile isPySpace
        let s6 := s5.dropWhile isPySpace
        let s7 ← dropLit default s6
        some (name ++ ws1 ++ ':' :: gap ++ '=' :: ws2, s7)
    else do
      let s3 ← match s2 with | '=' :: r => some r | _ => none
      let ws2 := s3.takeWhile isPySpace
      let s4 := s3.dropWhile isPySpace
      let s5 ← dropLit default s4
      some (name ++ ws1 ++ '=' :: ws2, s5)

/-- The re.sub scan: walk the line left to right, substituting each match
with group 1 followed by None and resuming after the matched text.  The fuel
starts above the line length; a (never occurring) zero-width match advances
one character, as re.sub does. -/
def reSubScan (annotated : Bool) (name default : List Char) :
    Nat → Option Char → List Char → List Char
  | 0, _, s => s
  | _ + 1, _, [] => []
  | fuel + 1, prev, s@(c :: rest) =>
    match tryMatchPat annotated name default prev s with
    | some (grp, after) =>
      if after.length < s.length then
        grp ++ ('N' :: 'o' :: 'n' :: 'e' :: []) ++
          reSubScan annotated name default fuel
            ((s.take (s.length - after.length)).getLast?) after
      else c :: reSubScan annotated name default fuel (some c) rest
    | none => c :: reSubScan annotated name default fuel (some c) rest

/-- Embeds one re.sub call on one line for one parameter: annotated selects
between pattern1 (with type annotation) and pattern2. -/
def reSubParam (annotated : Bool) (name default line : String) : String :=
  String.mk (reSubScan annotated name.toList default.toList (line.length + 1) none line.toList)

/-- The inner substitution loop of apply_mutable_default_fix: for each
(param_name, default_repr, _) pair, apply pattern1 then pattern2 to the line. -/
def substAllParams (params : List MutParam) (line : String) : String :=
  params.foldl (fun l p => reSubParam false p.1 p.2.1 (reSubParam true p.1 p.2.1 l)) line

/-- The signature-end scan of apply_mutable_default_fix: walk lines from the
declaration, tracking parenthesis depth across lines, and stop at the first
line where an opening parenthesis has been seen, the depth is back to zero
and the line contains a colon.  Returns none when the scan never stops; the
source then falls back to the initialization sig_end_idx = func_start_idx. -/
def findSigEnd : List String → Nat → Int → Bool → Option Nat
  | [], _, _, _ => none
  | line :: rest, i, depth, found =>
    let cs := line.toList
    let depth2 := depth + (cs.countP (· = '(') : Int) - (cs.countP (· = ')') : Int)
    let found2 := found ∨ cs.contains '('
    if found2 ∧ depth2 = 0 ∧ strContainsChar line ':' then some i
    else findSigEnd rest (i + 1) depth2 found2

/-- Body-scan loop of get_function_body_indent: stay in the signature until
a line rstrips to a trailing colon (that line itself is skipped), then
return the indentation of the first non-empty line not starting with a hash. -/
def bodyIndentLoop : List String → Bool → Option String
  | [], _ => none
  | line :: rest, in_signature =>
    if in_signature then
      bodyIndentLoop rest (¬ rstripEndsWithColon line)
    else
      let stripped := pyLstrip line
      if stripped ≠ "" ∧ ¬ (stripped.toList.head? = some '#') then some (leadingWS line)
      else bodyIndentLoop rest false

/-- Embeds get_function_body_indent(lines, func_line).  The fallback indexes
lines[func_line - 1], which every caller has bounds-checked; the model uses
a defaulted lookup there. -/
def get_function_body_indent (lines : List String) (func_line : Int) : String :=
  match bodyIndentLoop (lines.drop (func_line - 1).toNat) true with
  | some ind => ind
  | none => leadingWS (lines.getD (func_line - 1).toNat "") ++ "    "

/-- Docstring skip of apply_mutable_default_fix: from the line after the
signature, skip a single-line docstring, or scan for the closing marker of a
multi-line one (the start line is kept as body start when no closing marker
exists). -/
def multilineDocstringEnd (lines : List String) (quote : String) : Nat → Option Nat
  | i =>
    match h : lines.drop i with
    | [] => none
    | line :: _ =>
      if containsSub quote.toList line.toList then some (i + 1)
      else
        have : lines.length - (i + 1) < lines.length - i := by
          have hi : i < lines.length := by
            by_contra hge
            simp [List.drop_eq_nil_of_le (Nat.le_of_not_lt hge)] at h
          omega
        multilineDocstringEnd lines quote (i + 1)
termination_by i => lines.length - i

/-- Triple-quote prefix test: startswith three double quotes or three single
quotes. -/
def startsTriple (s : String) : Bool :=
  let sq := String.mk (List.replicate 3 (Char.ofNat 39))
  ("\"\"\"".toList.isPrefixOf s.toList) ∨ (sq.toList.isPrefixOf s.toList)

/-- Body-start computation of apply_mutable_default_fix (docstring skipping),
reading the already-substituted lines exactly as the source reads the
mutated lines list. -/
def bodyStartIdx (lines : List String) (sig_end_idx : Nat) : Nat :=
  let bs0 := sig_end_idx + 1
  if bs0 < lines.length then
    let first := pyStrip (lines.getD bs0 "")
    if startsTriple first then
      let quote := String.mk (first.toList.take 3)
      if 2 ≤ pyCount first quote ∧ 6 < first.length then bs0 + 1
      else (multilineDocstringEnd lines quote (bs0 + 1)).getD bs0
    else bs0
  else bs0

/-- Embeds apply_mutable_default_fix(source, line_start, params): return none
for an empty parameter list or an out-of-range line; otherwise substitute
None for each captured default inside the signature span and insert the
guard block after the signature (and after any docstring). -/
def apply_mutable_default_fix (source : String) (line_start : Int)
    (params : List MutParam) : Option String :=
  if params = [] then none
  else
    let lines := pySplitlinesKeepends source
    if line_start < 1 ∨ line_start > (lines.length : Int) then none
    else
      let func_start_idx := (line_start - 1).toNat
      let sig_end_idx := (findSigEnd (lines.drop func_start_idx) func_start_idx 0 false).getD func_start_idx
      let body_indent := get_function_body_indent lines line_start
      let lines2 := lines.mapIdx (fun i line =>
        if func_start_idx ≤ i ∧ i ≤ sig_end_idx then substAllParams params line else line)
      let body_start_idx := bodyStartIdx lines2 sig_end_idx
      let init_lines := params.flatMap (fun p =>
        [body_indent ++ "if " ++ p.1 ++ " is None:\n",
         body_indent ++ "    " ++ p.1 ++ " = " ++ p.2.1 ++ "\n"])
      let new_lines := lines2.take body_start_idx ++ init_lines ++ lines2.drop body_start_idx
      some (String.join new_lines)

/-!  Embedding of src/code_rescue/model/rescue_action.py. -/

/-- ActionType enum. -/
inductive ActionType where
  | REMOVE | REPLACE | EXTRACT | REFACTOR | FLAG
deriving DecidableEq, Repr

/-- SafetyLevel enum. -/
inductive SafetyLevel where
  | SAFE | SEMI_AUTO | MANUAL
deriving DecidableEq, Repr

/-- RescueAction dataclass.  metadata is modeled as a string-keyed,
string-valued association list (non-string metadata values are outside the
model; the code only ever reads the rule_id slot, as a string). -/
structure RescueAction where
  action_id : String
  finding_id : String
  rule_id : String
  action_type : ActionType
  safety_level : SafetyLevel
  description : String
  file_path : String
  line_start : Int
  line_end : Int
  original_code : Option String := none
  replacement_code : Option String := none
  rationale : Option String := none
  metadata : List (String × String) := []
deriving DecidableEq, Repr

/-- RULE_ACTION_MAP: the static rule_id → (action_type, safety_level) table. -/
def RULE_ACTION_MAP : List (String × (ActionType × SafetyLevel)) :=
  [("DC_UNREACHABLE_001", (.REMOVE, .SAFE)),
   ("DC_IF_FALSE_001", (.REMOVE, .SAFE)),
   ("DC_ASSERT_FALSE_001", (.FLAG, .MANUAL)),
   ("GST_MUTABLE_DEFAULT_001", (.REPLACE, .SAFE)),
   ("GST_MUTABLE_MODULE_001", (.FLAG, .MANUAL)),
   ("GST_GLOBAL_KEYWORD_001", (.REFACTOR, .MANUAL)),
   ("SEC_HARDCODED_SECRET_001", (.EXTRACT, .SEMI_AUTO)),
   ("SEC_EVAL_001", (.REPLACE, .MANUAL)),
   ("SEC_SUBPROCESS_SHELL_001", (.REPLACE, .SEMI_AUTO)),
   ("SEC_SQL_INJECTION_001", (.REPLACE, .SEMI_AUTO)),
   ("SEC_PICKLE_LOAD_001", (.FLAG, .MANUAL)),
   ("SEC_YAML_UNSAFE_001", (.REPLACE, .SAFE)),
   ("EXC_SWALLOW_001", (.FLAG, .MANUAL)),
   ("EXC_BROAD_LOGGED_001", (.FLAG, .MANUAL))]

/-- Embeds get_action_mapping: dictionary lookup with the default pair
(FLAG, MANUAL) for rule identifiers not in the table. -/
def get_action_mapping (rule_id : String) : ActionType × SafetyLevel :=
  (RULE_ACTION_MAP.lookup rule_id).getD (.FLAG, .MANUAL)

/-!  Embedding of apply_fixes_to_file (the fix application driver of
src/code_rescue/fixers/mutable_default.py).  File-system effects are made
explicit: the parse argument stands for ast.parse applied to the evolving
in-memory text, file_exists for Path.exists, source for read_text, and the
returned finalText and wrote fields for the conditional write_text call.
The in-place mutation action.line_start += offset is modeled by returning,
in actionLines, the final line_start of each action that passes can_fix, in
processing order. -/

/-- SUPPORTED_RULES of MutableDefaultFixer. -/
def SUPPORTED_RULES : List String := ["GST_MUTABLE_DEFAULT_001"]

/-- Embeds MutableDefaultFixer.can_fix. -/
def can_fix (action : RescueAction) : Bool := SUPPORTED_RULES.contains action.rule_id

/-- Result of one driver run over one file: the applied counter and errors
list of the returned dict, plus the write-back effect made explicit. -/
structure FileFixOutcome where
  applied : Nat
  errors : List String
  finalText : String
  wrote : Bool
  actionLines : List Int
deriving DecidableEq, Repr

/-- Drift retry of the driver: for offset in range(-3, 4), re-run locate at
line_start + offset on the current text and stop at the first offset that
yields parameters. -/
def retrySearch (parse : String → Option PyModule) (modified : String) (base : Int) :
    List Int → Except String (Option (List MutParam × Int))
  | [] => .ok none
  | o :: os => do
    let ps ← find_mutable_default_params (parse modified) modified (base + o)
    if ps ≠ [] then .ok (some (ps, base + o)) else retrySearch parse modified base os

/-- One iteration of the driver loop over a sorted action: locate at the
recorded line, retry on drift, rewrite on success.  State: current text,
applied counter, and the recorded action lines so far. -/
def driverStep (parse : String → Option PyModule) (st : String × Nat × List Int)
    (action : RescueAction) : Except String (String × Nat × List Int) := do
  let (modified, applied, linesAcc) := st
  if ¬ can_fix action then .ok (modified, applied, linesAcc)
  else do
    let params0 ← find_mutable_default_params (parse modified) modified action.line_start
    let (params, line) ←
      if params0 = [] then do
        let r ← retrySearch parse modified action.line_start [-3, -2, -1, 0, 1, 2, 3]
        match r with
        | some (ps, l) => .ok (ps, l)
        | none => .ok (([] : List MutParam), action.line_start)
      else .ok (params0, action.line_start)
    if params ≠ [] then
      match apply_mutable_default_fix modified line params with
      | some new_source => .ok (new_source, applied + 1, linesAcc ++ [line])
      | none => .ok (modified, applied, linesAcc ++ [line])
    else .ok (modified, applied, linesAcc ++ [line])

/-- Embeds apply_fixes_to_file(file_path, actions, dry_run): missing file
short-circuits with the only error the function ever records; otherwise the
actions are processed in descending line_start order against the evolving
text, and the text is written back when it changed and dry_run is off. -/
def apply_fixes_to_file (parse : String → Option PyModule) (file_path : String)
    (file_exists : Bool) (source : String) (actions : List RescueAction)
    (dry_run : Bool) : Except String FileFixOutcome := do
  if ¬ file_exists then
    .ok ⟨0, ["File not found: " ++ file_path], source, false, []⟩
  else do
    let actions_sorted := pyStableSort
      (fun a b => decide ((-a.line_start : Int) ≤ -b.line_start)) actions
    let (modified, applied, actionLines) ←
      actions_sorted.foldlM (driverStep parse) (source, 0, ([] : List Int))
    .ok ⟨applied, [], modified, modified ≠ source ∧ ¬ dry_run, actionLines⟩

/-!  Embedding of src/code_rescue/ingest/run_result_loader.py.

JSON documents are modeled by the JValue inductive; a parsed document is a
string-keyed association list (Python dicts have unique keys).  The embedded
dataclasses are typed, while the Python ones accept any value without
validation; loading therefore runs in Except, and a model error marks a
field whose JSON value does not have the type the dataclass field declares
(Python would either raise an AttributeError/TypeError at the same spot or
store the ill-typed value untouched — no claim exercises the latter). -/

/-- JSON values. -/
inductive JValue where
  | jnull
  | jbool (b : Bool)
  | jnum (q : ℚ)
  | jstr (s : String)
  | jarr (elems : List JValue)
  | jobj (fields : List (String × JValue))

/-- A JSON object body. -/
abbrev JObj := List (String × JValue)

/-- Python dict.get(key) without default. -/
def jGet (obj : JObj) (key : String) : Option JValue := obj.lookup key

/-- Field access data.get(key, default) for a string-typed dataclass field. -/
def jGetStrD (obj : JObj) (key : String) (dflt : String) : Except String String :=
  match jGet obj key with
  | none => .ok dflt
  | some (.jstr s) => .ok s
  | some _ => .error (key ++ ": not a string")

/-- Field access data.get(key, default) for an integer-typed field. -/
def jGetIntD (obj : JObj) (key : String) (dflt : Int) : Except String Int :=
  match jGet obj key with
  | none => .ok dflt
  | some (.jnum q) => if q.den = 1 then .ok q.num else .error (key ++ ": not an int")
  | some _ => .error (key ++ ": not an int")

/-- Field access data.get(key, default) for a numeric field. -/
def jGetNumD (obj : JObj) (key : String) (dflt : ℚ) : Except String ℚ :=
  match jGet obj key with
  | none => .ok dflt
  | some (.jnum q) => .ok q
  | some _ => .error (key ++ ": not a number")

/-- Field access data.get(key) for an optional string field (JSON null and a
missing key both become the absent value, as in Python). -/
def jGetOptStr (obj : JObj) (key : String) : Except String (Option String) :=
  match jGet obj key with
  | none => .ok none
  | some .jnull => .ok none
  | some (.jstr s) => .ok (some s)
  | some _ => .error (key ++ ": not a string")

/-- Field access data.get(key, {}) for an object-valued field. -/
def jGetObjD (obj : JObj) (key : String) : Except String JObj :=
  match jGet obj key with
  | none => .ok []
  | some (.jobj o) => .ok o
  | some _ => .error (key ++ ": not an object")

/-- Field access data.get(key, []) for an array-valued field. -/
def jGetArrD (obj : JObj) (key : String) : Except String (List JValue) :=
  match jGet obj key with
  | none => .ok []
  | some (.jarr l) => .ok l
  | some _ => .error (key ++ ": not an array")

/-- Conversion of a metadata object to the string-valued map of the model. -/
def jStrFields : JObj → Except String (List (String × String))
  | [] => .ok []
  | (k, .jstr v) :: rest => do
    let r ← jStrFields rest
    .ok ((k, v) :: r)
  | (k, _) :: _ => .error (k ++ ": not a string")

/-- Field access data.get("metadata", {}) restricted to string values. -/
def jGetStrMapD (obj : JObj) (key : String) : Except String (List (String × String)) :=
  match jGet obj key with
  | none => .ok []
  | some (.jobj o) => jStrFields o
  | some _ => .error (key ++ ": not an object")

/-- Location dataclass. -/
structure Location where
  path : String
  line_start : Int
  line_end : Int
deriving DecidableEq, Repr

/-- Finding dataclass; confidence models the Python float with an exact
rational. -/
structure Finding where
  finding_id : String
  type : String
  severity : String
  message : String
  location : Location
  confidence : ℚ
  snippet : Option String := none
  metadata : List (String × String) := []
deriving DecidableEq

/-- The Finding.rule_id property: self.metadata.get("rule_id"). -/
def Finding.rule_id (f : Finding) : Option String := f.metadata.lookup "rule_id"

/-- Signal dataclass. -/
structure Signal where
  signal_id : String
  type : String
  risk_level : String
  urgency : String
  evidence : JObj := []

/-- RunMetadata dataclass. -/
structure RunMetadata where
  run_id : String
  signal_logic_version : String
  engine_version : String
  tool_version : String
deriving DecidableEq

/-- RunResult dataclass. -/
structure RunResult where
  schema_version : String
  run : RunMetadata
  findings : List Finding
  signals : List Signal
  summary : JObj

/-- Embeds _parse_location. -/
def parse_location (data : JObj) : Except String Location := do
  let path ← jGetStrD data "path" ""
  let line_start ← jGetIntD data "line_start" 0
  let line_end ← jGetIntD data "line_end" 0
  .ok ⟨path, line_start, line_end⟩

/-- Embeds _parse_finding. -/
def parse_finding (data : JObj) : Except String Finding := do
  let finding_id ← jGetStrD data "finding_id" ""
  let ftype ← jGetStrD data "type" ""
  let severity ← jGetStrD data "severity" "info"
  let message ← jGetStrD data "message" ""
  let loc_obj ← jGetObjD data "location"
  let location ← parse_location loc_obj
  let confidence ← jGetNumD data "confidence" 0
  let snippet ← jGetOptStr data "snippet"
  let metadata ← jGetStrMapD data "metadata"
  .ok ⟨finding_id, ftype, severity, message, location, confidence, snippet, metadata⟩

/-- Embeds _parse_signal. -/
def parse_signal (data : JObj) : Except String Signal := do
  let signal_id ← jGetStrD data "signal_id" ""
  let stype ← jGetStrD data "type" ""
  let risk_level ← jGetStrD data "risk_level" "green"
  let urgency ← jGetStrD data "urgency" "optional"
  let evidence ← jGetObjD data "evidence"
  .ok ⟨signal_id, stype, risk_level, urgency, evidence⟩

/-- Embeds _parse_run_metadata. -/
def parse_run_metadata (data : JObj) : Except String RunMetadata := do
  let run_id ← jGetStrD data "run_id" ""
  let slv ← jGetStrD data "signal_logic_version" ""
  let ev ← jGetStrD data "engine_version" ""
  let tv ← jGetStrD data "tool_version" ""
  .ok ⟨run_id, slv, ev, tv⟩

/-- List-comprehension helper: parse every element of findings_raw, each of
which must be an object (Python raises an AttributeError otherwise). -/
def parseFindingList : List JValue → Except String (List Finding)
  | [] => .ok []
  | .jobj o :: rest => do
    let f ← parse_finding o
    let fs ← parseFindingList rest
    .ok (f :: fs)
  | _ :: _ => .error "finding: not an object"

/-- List-comprehension helper for signals_snapshot. -/
def parseSignalList : List JValue → Except String (List Signal)
  | [] => .ok []
  | .jobj o :: rest => do
    let s ← parse_signal o
    let ss ← parseSignalList rest
    .ok (s :: ss)
  | _ :: _ => .error "signal: not an object"

/-- Embeds load_run_result: the schema_version marker is compared first,
before any other field is touched, and any value other than the exact
string makes the function return the absent result (Python None). -/
def load_run_result (data : JObj) : Except String (Option RunResult) :=
  match jGet data "schema_version" with
  | some (.jstr "run_result_v1") => do
    let run_data ← jGetObjD data "run"
    let findings_raw ← jGetArrD data "findings_raw"
    let signals_snapshot ← jGetArrD data "signals_snapshot"
    let summary ← jGetObjD data "summary"
    let run ← parse_run_metadata run_data
    let findings ← parseFindingList findings_raw
    let signals ← parseSignalList signals_snapshot
    .ok (some ⟨"run_result_v1", run, findings, signals, summary⟩)
  | _ => .ok none

/-!  Well-typedness of a document: every field that is present has the JSON
type the corresponding dataclass field declares.  A well-typed document is
exactly one on which the typed model loads without a model error; fields may
be missing freely. -/

/-- Optional-field shape tests. -/
def wtStr : Option JValue → Bool
  | none => true
  | some (.jstr _) => true
  | _ => false

/-- Optional integer field. -/
def wtInt : Option JValue → Bool
  | none => true
  | some (.jnum q) => q.den = 1
  | _ => false

/-- Optional numeric field. -/
def wtNum : Option JValue → Bool
  | none => true
  | some (.jnum _) => true
  | _ => false

/-- Optional nullable-string field. -/
def wtOptStr : Option JValue → Bool
  | none => true
  | some .jnull => true
  | some (.jstr _) => true
  | _ => false

/-- Optional plain-object field. -/
def wtObj : Option JValue → Bool
  | none => true
  | some (.jobj _) => true
  | _ => false

/-- Optional string-valued-object field. -/
def wtStrMap : Option JValue → Bool
  | none => true
  | some (.jobj o) => o.all (fun kv => match kv.2 with | .jstr _ => true | _ => false)
  | _ => false

/-- Well-typed location object. -/
def wtLocObj (d : JObj) : Bool :=
  wtStr (jGet d "path") && wtInt (jGet d "line_start") && wtInt (jGet d "line_end")

/-- Well-typed finding object. -/
def wtFindingObj (d : JObj) : Bool :=
  wtStr (jGet d "finding_id") && wtStr (jGet d "type") && wtStr (jGet d "severity") &&
  wtStr (jGet d "message") &&
  (match jGet d "location" with
   | none => true
   | some (.jobj ld) => wtLocObj ld
   | _ => false) &&
  wtNum (jGet d "confidence") && wtOptStr (jGet d "snippet") &&
  wtStrMap (jGet d "metadata")

/-- Well-typed signal object. -/
def wtSignalObj (d : JObj) : Bool :=
  wtStr (jGet d "signal_id") && wtStr (jGet d "type") && wtStr (jGet d "risk_level") &&
  wtStr (jGet d "urgency") && wtObj (jGet d "evidence")

/-- Well-typed run-metadata object. -/
def wtRunObj (d : JObj) : Bool :=
  wtStr (jGet d "run_id") && wtStr (jGet d "signal_logic_version") &&
  wtStr (jGet d "engine_version") && wtStr (jGet d "tool_version")

/-- Well-typed run_result document. -/
def wtDoc (d : JObj) : Bool :=
  (match jGet d "run" with
   | none => true
   | some (.jobj o) => wtRunObj o
   | _ => false) &&
  (match jGet d "findings_raw" with
   | none => true
   | some (.jarr l) => l.all (fun v => match v with | .jobj o => wtFindingObj o | _ => false)
   | _ => false) &&
  (match jGet d "signals_snapshot" with
   | none => true
   | some (.jarr l) => l.all (fun v => match v with | .jobj o => wtSignalObj o | _ => false)
   | _ => false) &&
  wtObj (jGet d "summary")

/-!  Embedding of src/code_rescue/planner/rescue_planner.py. -/

/-- SEVERITY_PRIORITY table. -/
def SEVERITY_PRIORITY : List (String × Int) :=
  [("critical", 4), ("high", 3), ("medium", 2), ("low", 1), ("info", 0)]

/-- SEVERITY_PRIORITY.get(severity, 0). -/
def severityRank (severity : String) : Int :=
  (SEVERITY_PRIORITY.lookup severity).getD 0

/-- Python int() applied to a non-negative rational: truncation toward zero,
which is the floor there.  The source computes int(confidence * 100) on a
machine float; the model computes it on the exact rational. -/
def pyIntTrunc (q : ℚ) : Int :=
  if 0 ≤ q then ⌊q⌋ else -⌊-q⌋

/-- Embeds _finding_priority: the composite sort key
(-severity_rank, -int(confidence * 100), path, line_start). -/
def finding_priority (f : Finding) : Int × Int × String × Int :=
  (-(severityRank f.severity), -(pyIntTrunc (f.confidence * 100)),
   f.location.path, f.location.line_start)

/-- The lexicographic reading of the 4-tuple key: Python compares tuples
lexicographically with the component orders. -/
def keyLex (t : Int × Int × String × Int) : Int ×ₗ Int ×ₗ String ×ₗ Int :=
  toLex (t.1, toLex (t.2.1, toLex (t.2.2.1, t.2.2.2)))

/-- Boolean key comparison used to instantiate the stable sort for
sorted(findings, key=_finding_priority). -/
def findingLe (a b : Finding) : Bool :=
  decide (keyLex (finding_priority a) ≤ keyLex (finding_priority b))

/-- Python str.upper() (ASCII model). -/
def pyUpper (s : String) : String := String.mk (s.toList.map Char.toUpper)

/-- Python x or y on an optional string: y when x is None or the empty
string (both are falsy), x otherwise. -/
def pyOrStr (x : Option String) (y : String) : String :=
  match x with
  | none => y
  | some s => if s = "" then y else s

/-- Zero-padded action counter f"A{n:04d}". -/
def formatActionId (n : Nat) : String :=
  let s := toString n
  "A" ++ String.mk (List.replicate (4 - s.length) '0') ++ s

/-- Rationale table of _generate_rationale. -/
def RATIONALE_TABLE : List (String × String) :=
  [("DC_UNREACHABLE_001", "Code after return/raise/break/continue never executes."),
   ("DC_IF_FALSE_001", "Code inside 'if False:' block never executes."),
   ("DC_ASSERT_FALSE_001", "assert False always fails - may be intentional placeholder."),
   ("GST_MUTABLE_DEFAULT_001", "Mutable default arguments are shared across calls."),
   ("GST_MUTABLE_MODULE_001", "Module-level mutable state can cause unexpected behavior."),
   ("GST_GLOBAL_KEYWORD_001", "Global keyword creates hidden dependencies."),
   ("SEC_HARDCODED_SECRET_001", "Hardcoded secrets should be extracted to environment variables."),
   ("SEC_EVAL_001", "eval() can execute arbitrary code - use ast.literal_eval() if possible."),
   ("SEC_SUBPROCESS_SHELL_001", "shell=True is vulnerable to command injection."),
   ("SEC_SQL_INJECTION_001", "String formatting in SQL is vulnerable to injection."),
   ("SEC_PICKLE_LOAD_001", "pickle.load() can execute arbitrary code from untrusted data."),
   ("SEC_YAML_UNSAFE_001", "yaml.load() without SafeLoader can execute arbitrary code.")]

/-- Embeds _generate_rationale (the action_type parameter is unused in the
source as well). -/
def generate_rationale (rule_id : String) (_action_type : ActionType) : String :=
  (RATIONALE_TABLE.lookup rule_id).getD
    ("Rule " ++ rule_id ++ " triggered - review recommended.")

/-- Embeds _create_action_from_finding: resolve the rule identifier with
Python or-falsiness, look the action pair up in the taxonomy, and copy the
finding fields into the action. -/
def create_action_from_finding (f : Finding) (action_num : Nat) : RescueAction :=
  let rule_id := pyOrStr f.rule_id (pyUpper f.type ++ "_UNKNOWN")
  let pair := get_action_mapping rule_id
  { action_id := formatActionId action_num
    finding_id := f.finding_id
    rule_id := rule_id
    action_type := pair.1
    safety_level := pair.2
    description := f.message
    file_path := f.location.path
    line_start := f.location.line_start
    line_end := f.location.line_end
    original_code := f.snippet
    replacement_code := none
    rationale := some (generate_rationale rule_id pair.1)
    metadata := f.metadata }

/-- Embeds the action construction of create_rescue_plan (lines 101-108 of
rescue_planner.py): sort the findings by the composite priority key and
create one action per finding, numbered in sorted order.  The summary
aggregation of the remaining lines touches no field any claim mentions and
is not modeled. -/
def create_rescue_plan_actions (r : RunResult) : List RescueAction :=
  let sorted_findings := pyStableSort findingLe r.findings
  (pyEnumerate 0 sorted_findings).map (fun p => create_action_from_finding p.2 p.1)

/-!  Generic facts about the stable-sort model. -/

/-- Membership after insertion. -/
theorem mem_insertLe {le : α → α → Bool} {x z : α} :
    ∀ {l : List α}, z ∈ insertLe le x l → z = x ∨ z ∈ l := by
  intro l
  induction l with
  | nil => intro h; simpa [insertLe] using h
  | cons y ys ih =>
    intro h
    by_cases hle : le x y = true
    · simpa [insertLe, hle, or_assoc] using h
    · rw [insertLe, if_neg (by simp [hle])] at h
      rcases List.mem_cons.mp h with h1 | h1
      · exact Or.inr (by simp [h1])
      · rcases ih h1 with h2 | h2
        · exact Or.inl h2
        · exact Or.inr (by simp [h2])

/-- Insertion produces a permutation of the cons. -/
theorem insertLe_perm (le : α → α → Bool) (x : α) (l : List α) :
    List.Perm (insertLe le x l) (x :: l) := by
  induction l with
  | nil => simp [insertLe]
  | cons y ys ih =>
    by_cases hle : le x y = true
    · simp [insertLe, hle]
    · rw [insertLe, if_neg (by simp [hle])]
      exact (ih.cons y).trans (List.Perm.swap x y ys)

/-- The stable sort is a permutation of its input. -/
theorem pyStableSort_perm (le : α → α → Bool) (l : List α) :
    List.Perm (pyStableSort le l) l := by
  induction l with
  | nil => simp [pyStableSort]
  | cons x xs ih => exact (insertLe_perm le x (pyStableSort le xs)).trans (ih.cons x)

/-- Insertion preserves pairwise comparability for a total transitive
boolean relation. -/
theorem pairwise_insertLe {le : α → α → Bool}
    (htot : ∀ a b, le a b = false → le b a = true)
    (htr : ∀ a b c, le a b = true → le b c = true → le a c = true)
    (x : α) : ∀ {l : List α}, l.Pairwise (fun a b => le a b = true) →
    (insertLe le x l).Pairwise (fun a b => le a b = true) := by
  intro l
  induction l with
  | nil => intro _; simp [insertLe]
  | cons y ys ih =>
    intro hl
    rcases List.pairwise_cons.mp hl with ⟨hy, hys⟩
    by_cases hle : le x y = true
    · rw [insertLe, if_pos hle]
      refine List.Pairwise.cons ?_ hl
      intro z hz
      rcases List.mem_cons.mp hz with rfl | hz
      · exact hle
      · exact htr x y z hle (hy z hz)
    · rw [insertLe, if_neg (by simp [hle])]
      refine List.Pairwise.cons ?_ (ih hys)
      intro z hz
      rcases mem_insertLe hz with h3 | hz
      · rw [h3]; exact htot x y (by simpa using hle)
      · exact hy z hz

/-- The stable sort is pairwise-sorted for a total transitive boolean
relation. -/
theorem pairwise_pyStableSort {le : α → α → Bool}
    (htot : ∀ a b, le a b = false → le b a = true)
    (htr : ∀ a b c, le a b = true → le b c = true → le a c = true)
    (l : List α) : (pyStableSort le l).Pairwise (fun a b => le a b = true) := by
  induction l with
  | nil => simp [pyStableSort]
  | cons x xs ih => exact pairwise_insertLe htot htr x ih

/-- Length is preserved by the stable sort. -/
theorem pyStableSort_length (le : α → α → Bool) (l : List α) :
    (pyStableSort le l).length = l.length :=
  (pyStableSort_perm le l).length_eq

/-- Length of pyEnumerate. -/
theorem pyEnumerate_length (n : Nat) (l : List α) :
    (pyEnumerate n l).length = l.length := by
  induction l generalizing n with
  | nil => rfl
  | cons x xs ih => simp [pyEnumerate, ih]

/-!  Specification-side definitions used to state the claims. -/

/-- Qualification of one positional (parameter, default) pair, with the same
classification and captured text the code produces. -/
def qualPosPair (source : String) (p : String × PyExpr) : Option MutParam :=
  match p.2 with
  | .listE n loc => some (p.1, reconstruct_list n loc source, "list")
  | .dictE _ => some (p.1, "{}", "dict")
  | .setE _ => some (p.1, "set()", "set")
  | .callNameE fid nargs loc =>
    if fid = "list" ∧ nargs = 0 then some (p.1, "[]", "list")
    else if fid = "dict" ∧ nargs = 0 then some (p.1, "{}", "dict")
    else if fid = "set" ∧ nargs = 0 then some (p.1, "set()", "set")
    else if fid = "list" ∧ nargs ≠ 0 then some (p.1, getSourceSegment source loc, "list")
    else none
  | .callOtherE _ => none
  | .otherE => none

/-- Qualification of one keyword-only (parameter, default) pair. -/
def qualKwPair (source : String) (p : String × Option PyExpr) : Option MutParam :=
  match p.2 with
  | none => none
  | some (.listE n loc) => some (p.1, reconstruct_list n loc source, "list")
  | some (.dictE _) => some (p.1, "{}", "dict")
  | some (.setE _) => some (p.1, "set()", "set")
  | some _ => none

/-- Modelled from the specification wording of claim C7: default values
right-align to the tail of the positional parameter list (which in a Python
declaration is posonlyargs followed by args), qualifying positional
parameters are reported in declaration order, and qualifying keyword-only
parameters follow them in declaration order. -/
def alignedMutParams (source : String) (f : PyFunctionDef) : List MutParam :=
  let pos := f.args.posonlyargs ++ f.args.args
  ((pos.drop (pos.length - f.args.defaults.length)).zip f.args.defaults).filterMap
    (qualPosPair source)
  ++ (f.args.kwonlyargs.zip f.args.kw_defaults).filterMap (qualKwPair source)

/-- The tie-broken composite key of claim C3: the lexicographic priority key
of the finding, with the original input position as final tiebreaker. -/
def keyIdxLe (p q : Nat × Finding) : Bool :=
  decide ((toLex (keyLex (finding_priority p.2), p.1) : (Int ×ₗ Int ×ₗ String ×ₗ Int) ×ₗ Nat)
    ≤ toLex (keyLex (finding_priority q.2), q.1))

/-- Strict version of the tie-broken composite key order. -/
def keyIdxLt (p q : Nat × Finding) : Prop :=
  (toLex (keyLex (finding_priority p.2), p.1) : (Int ×ₗ Int ×ₗ String ×ₗ Int) ×ₗ Nat)
    < toLex (keyLex (finding_priority q.2), q.1)

/-!  Locate lemmas for claim C7. -/

/-- Python indexing at a non-negative index is plain list indexing. -/
theorem pyGet_natCast (l : List α) (k : Nat) : pyGet l (k : Int) = l.get? k := by
  simp [pyGet]

/-- One positional step, when the index is in range, returns exactly the
qualification of the indexed (parameter, default) pair. -/
theorem posDefaultStep_ok {args : List String} {n i : Nat} {a : String}
    (source : String) (d : PyExpr)
    (h : pyGet args ((n : Int) + (i : Int)) = some a) :
    posDefaultStep source args (n : Int) i d = .ok (qualPosPair source (a, d)) := by
  cases d with
  | listE m loc => simp [posDefaultStep, qualPosPair, h]
  | dictE loc => simp [posDefaultStep, qualPosPair, h]
  | setE loc => simp [posDefaultStep, qualPosPair, h]
  | callNameE fid nargs loc =>
    simp only [posDefaultStep, qualPosPair]
    split_ifs <;> simp [h]
  | callOtherE loc => simp [posDefaultStep, qualPosPair]
  | otherE => simp [posDefaultStep, qualPosPair]

/-- The positional loop, in range, computes the qualifications of the zip of
the right-aligned args tail with the defaults. -/
theorem posDefaultsLoop_ok (source : String) (args : List String) (n : Nat) :
    ∀ (ds : List PyExpr) (i : Nat), n + i + ds.length ≤ args.length →
    posDefaultsLoop source args (n : Int) i ds =
      .ok (((args.drop (n + i)).zip ds).filterMap (qualPosPair source)) := by
  intro ds
  induction ds with
  | nil => intro i _; simp [posDefaultsLoop]
  | cons d ds ih =>
    intro i hlen
    have hlen2 : n + i + (ds.length + 1) ≤ args.length := by simpa using hlen
    have hidx : n + i < args.length := by omega
    have hget : pyGet args ((n : Int) + (i : Int)) = some (args.get ⟨n + i, hidx⟩) := by
      have hcast : ((n : Int) + (i : Int)) = ((n + i : Nat) : Int) := by push_cast; ring
      rw [hcast, pyGet_natCast, List.get?_eq_get hidx]
    have hdrop : args.drop (n + i) = args.get ⟨n + i, hidx⟩ :: args.drop (n + i + 1) := by
      rw [List.drop_eq_getElem_cons hidx]; rfl
    have hrec := ih (i + 1) (by omega)
    rw [show n + (i + 1) = n + i + 1 by omega] at hrec
    simp only [posDefaultsLoop, posDefaultStep_ok source d hget, hrec, hdrop,
      List.zip_cons_cons, List.filterMap_cons]
    cases hq : qualPosPair source (args.get ⟨n + i, hidx⟩, d) <;> rfl

/-- The keyword-only loop, in range, computes the qualifications of the zip
of the keyword-only parameters with their defaults. -/
theorem kwDefaultsLoop_ok (source : String) (kwonly : List String) :
    ∀ (ds : List (Option PyExpr)) (i : Nat), i + ds.length ≤ kwonly.length →
    kwDefaultsLoop source kwonly i ds =
      .ok (((kwonly.drop i).zip ds).filterMap (qualKwPair source)) := by
  intro ds
  induction ds with
  | nil => intro i _; simp [kwDefaultsLoop]
  | cons d ds ih =>
    intro i hlen
    have hlen2 : i + (ds.length + 1) ≤ kwonly.length := by simpa using hlen
    have hidx : i < kwonly.length := by omega
    have hget : pyGet kwonly (i : Int) = some (kwonly.get ⟨i, hidx⟩) := by
      rw [pyGet_natCast, List.get?_eq_get hidx]
    have hdrop : kwonly.drop i = kwonly.get ⟨i, hidx⟩ :: kwonly.drop (i + 1) := by
      rw [List.drop_eq_getElem_cons hidx]; rfl
    have hstep : kwDefaultStep source kwonly i d =
        .ok (qualKwPair source (kwonly.get ⟨i, hidx⟩, d)) := by
      cases d with
      | none => simp [kwDefaultStep, qualKwPair]
      | some e => cases e <;> simp [kwDefaultStep, qualKwPair, hget]
    have hrec := ih (i + 1) (by omega)
    simp only [kwDefaultsLoop, hstep, hrec, hdrop, List.zip_cons_cons, List.filterMap_cons]
    cases hq : qualKwPair source (kwonly.get ⟨i, hidx⟩, d) <;> rfl

/-- One function node, without positional-only parameters and with the
parser-guaranteed length invariants, yields exactly the tail-aligned
qualifying parameters in declaration order. -/
theorem funcMutParams_ok (source : String) (f : PyFunctionDef)
    (h1 : f.args.posonlyargs = [])
    (h2 : f.args.defaults.length ≤ f.args.args.length)
    (h3 : f.args.kw_defaults.length = f.args.kwonlyargs.length) :
    funcMutParams source f = .ok (alignedMutParams source f) := by
  have hoff : ((f.args.args.length : Int) - (f.args.defaults.length : Int)) =
      ((f.args.args.length - f.args.defaults.length : Nat) : Int) := by
    omega
  have hpos := posDefaultsLoop_ok source f.args.args
    (f.args.args.length - f.args.defaults.length) f.args.defaults 0 (by omega)
  have hkw := kwDefaultsLoop_ok source f.args.kwonlyargs f.args.kw_defaults 0 (by omega)
  rw [Nat.add_zero] at hpos
  rw [List.drop_zero] at hkw
  simp only [funcMutParams, hoff, hpos, hkw, alignedMutParams, h1, List.nil_append]
  rfl

/-- Walk lemma: locate accumulates the aligned qualifying parameters of
every function node on the requested line, under the no-positional-only and
length invariants. -/
theorem findLoop_ok (source : String) (line : Int) :
    ∀ tree : List PyFunctionDef,
    (∀ f ∈ tree, f.args.posonlyargs = [] ∧
      f.args.defaults.length ≤ f.args.args.length ∧
      f.args.kw_defaults.length = f.args.kwonlyargs.length) →
    findLoop source line tree =
      .ok ((tree.filter (fun g => decide (g.lineno = line))).flatMap (alignedMutParams source)) := by
  intro tree
  induction tree with
  | nil => intro _; rfl
  | cons f fs ih =>
    intro h
    have hf := h f (by simp)
    have hfs := ih (fun g hg => h g (by simp [hg]))
    by_cases hl : f.lineno = line
    · simp only [findLoop, hl, if_pos rfl,
        funcMutParams_ok source f hf.1 hf.2.1 hf.2.2, hfs,
        List.filter_cons, decide_eq_true_eq, hl, if_pos trivial]
      rfl
    · simp only [findLoop, if_neg hl, hfs, List.filter_cons]
      simp only [decide_eq_true_eq, hl, if_neg (fun hc => hl hc)]
      rfl

/-- Claim C7 (amended): for declarations without positional-only parameters,
locate right-aligns the positional defaults to the tail of args and returns
the qualifying parameters in declaration order, positional first and then
keyword-only.  (The counterexample shows the alignment is wrong when
positional-only parameters are present, because the defaults list of the
parser also spans them.) -/
theorem C7_locate_alignment (source : String) (line : Int) (tree : PyModule)
    (h : ∀ f ∈ tree, f.args.posonlyargs = [] ∧
      f.args.defaults.length ≤ f.args.args.length ∧
      f.args.kw_defaults.length = f.args.kwonlyargs.length) :
    find_mutable_default_params (some tree) source line =
      .ok ((tree.filter (fun g => decide (g.lineno = line))).flatMap (alignedMutParams source)) :=
  findLoop_ok source line tree h

/-- Witness for C7: the declaration def k(xs=[], *, m={}): pass (syntax tree
of ast.parse on the source below) satisfies the hypotheses, and locate
reports the positional list default first and the keyword-only dict default
second. -/
theorem C7_locate_alignment_witness :
    find_mutable_default_params
      (some [⟨1, ⟨[], ["xs"], [.listE 0 ⟨1, 9, 1, 11⟩], ["m"], [some (.dictE ⟨1, 18, 1, 20⟩)]⟩⟩])
      "def k(xs=[], *, m={}): pass\n" 1 =
      .ok [("xs", "[]", "list"), ("m", "{}", "dict")] := by
  rw [C7_locate_alignment _ _ _ (by intro f hf; simp at hf; simp [hf])]
  rfl

/-- Counterexample for C7: on def f(a=[], /, b=[]): pass the parser stores a
in posonlyargs and b in args while defaults spans both, so the code computes
offset -1 and (through negative-index wraparound) reports b twice and never
a; the tail alignment of the claim would report a then b. -/
theorem C7_posonly_counterexample :
    find_mutable_default_params
      (some [⟨1, ⟨["a"], ["b"], [.listE 0 ⟨1, 8, 1, 10⟩, .listE 0 ⟨1, 17, 1, 19⟩], [], []⟩⟩])
      "def f(a=[], /, b=[]): pass\n" 1 =
      .ok [("b", "[]", "list"), ("b", "[]", "list")] ∧
    alignedMutParams "def f(a=[], /, b=[]): pass\n"
      ⟨1, ⟨["a"], ["b"], [.listE 0 ⟨1, 8, 1, 10⟩, .listE 0 ⟨1, 17, 1, 19⟩], [], []⟩⟩ =
      [("a", "[]", "list"), ("b", "[]", "list")] ∧
    (["b"] : List String) ≠ ["a"] := by
  refine ⟨rfl, rfl, by decide⟩

/-- Claim C10: when the source fails to parse (the SyntaxError branch),
locate returns the empty list for every source text and line number instead
of propagating the exception. -/
theorem C10_syntax_error_returns_empty (source : String) (line_start : Int) :
    find_mutable_default_params none source line_start = .ok [] := rfl

/-- Claim C6 (amended): rewrite returns none exactly when the qualifying
list is empty or the declared line is outside the file; an unclosable
signature span is not detected (the scan falls back to the declaration line)
and still produces a rewritten text. -/
theorem C6_rewrite_none_iff (source : String) (line_start : Int) (params : List MutParam) :
    apply_mutable_default_fix source line_start params = none ↔
      params = [] ∨ line_start < 1 ∨
        line_start > ((pySplitlinesKeepends source).length : Int) := by
  by_cases h1 : params = []
  · simp [apply_mutable_default_fix, h1]
  · by_cases h2 : line_start < 1 ∨ line_start > ((pySplitlinesKeepends source).length : Int)
    · simp [apply_mutable_default_fix, h1, h2]
    · simp [apply_mutable_default_fix, h1, h2]

/-- Counterexample for C6: on a signature whose parenthesis never closes (no
line satisfies the closing condition, so the span scan returns nothing and
the code falls back to the declaration line), rewrite still returns a
rewritten text instead of none. -/
theorem C6_unclosed_signature_counterexample :
    findSigEnd (pySplitlinesKeepends "def foo(items=[],\n    pass\n") 0 0 false = none ∧
    apply_mutable_default_fix "def foo(items=[],\n    pass\n" 1 [("items", "[]", "list")] =
      some "def foo(items=None,\n    if items is None:\n        items = []\n    pass\n" := by
  exact ⟨rfl, rfl⟩

/-- Claim C1 (code bug): on def foo(items=[ ]): the captured representation
of the empty list literal is canonicalized to two characters, the exact
substitution in the signature therefore misses the three-character source
text, the default survives the rewrite, and locate on the rewritten text for
the same declaration still reports the parameter — the round-trip property
fails.  The two trees below are the ast.parse results of the original and
the rewritten text. -/
theorem C1_roundtrip_failure :
    find_mutable_default_params
      (some [⟨1, ⟨[], ["items"], [.listE 0 ⟨1, 14, 1, 17⟩], [], []⟩⟩])
      "def foo(items=[ ]):\n    pass\n" 1 = .ok [("items", "[]", "list")] ∧
    getSourceSegment "def foo(items=[ ]):\n    pass\n" ⟨1, 14, 1, 17⟩ = "[ ]" ∧
    apply_mutable_default_fix "def foo(items=[ ]):\n    pass\n" 1 [("items", "[]", "list")] =
      some "def foo(items=[ ]):\n    if items is None:\n        items = []\n    pass\n" ∧
    find_mutable_default_params
      (some [⟨1, ⟨[], ["items"], [.listE 0 ⟨1, 14, 1, 17⟩], [], []⟩⟩])
      "def foo(items=[ ]):\n    if items is None:\n        items = []\n    pass\n" 1 =
      .ok [("items", "[]", "list")] := by
  exact ⟨rfl, rfl, rfl, rfl⟩

/-- Claim C5 (code bug): a non-empty dict literal default is reported
qualifying but captured as the canonical empty-dict text rather than its
verbatim source text (same for set literals, captured as a set() call), so
the guard assignment the rewrite inserts restores an empty container; the
verbatim capture the claim states does hold for non-empty list literals.
The trees are the ast.parse results of the sources shown. -/
theorem C5_nonempty_capture :
    find_mutable_default_params
      (some [⟨1, ⟨[], ["d"], [.dictE ⟨1, 8, 1, 14⟩], [], []⟩⟩])
      "def f(d={1: 2}):\n    pass\n" 1 = .ok [("d", "{}", "dict")] ∧
    getSourceSegment "def f(d={1: 2}):\n    pass\n" ⟨1, 8, 1, 14⟩ = "{1: 2}" ∧
    apply_mutable_default_fix "def f(d={1: 2}):\n    pass\n" 1 [("d", "{}", "dict")] =
      some "def f(d={1: 2}):\n    if d is None:\n        d = {}\n    pass\n" ∧
    find_mutable_default_params
      (some [⟨1, ⟨[], ["s"], [.setE ⟨1, 8, 1, 14⟩], [], []⟩⟩])
      "def g(s={1, 2}):\n    pass\n" 1 = .ok [("s", "set()", "set")] ∧
    find_mutable_default_params
      (some [⟨1, ⟨[], ["x"], [.listE 2 ⟨1, 8, 1, 15⟩], [], []⟩⟩])
      "def h(x=[1,  2]):\n    pass\n" 1 = .ok [("x", "[1,  2]", "list")] := by
  exact ⟨rfl, rfl, rfl, rfl, rfl⟩

/-!  Concrete driver scenarios for claims C2 and C4.  Each oracle function
below returns the ast.parse tree of exactly the texts the run parses. -/

/-- A safe mutable-default action at a given line of a given file. -/
def mkMutableDefaultAction (path : String) (line : Int) : RescueAction :=
  { action_id := "A0000", finding_id := "F1", rule_id := "GST_MUTABLE_DEFAULT_001",
    action_type := .REPLACE, safety_level := .SAFE, description := "fix",
    file_path := path, line_start := line, line_end := line }

/-- The two-declaration file of the C2 drift-tolerance scenario: qualifying
declarations at lines 10 and 30, blank elsewhere. -/
def c2Src : String := "\n\n\n\n\n\n\n\n\ndef f(a=[]):\n    pass\n\n\n\n\n\n\n\n\n\n\n\n\n\n\n\n\n\n\ndef g(b=[]):\n    pass\n"

/-- The C2 file after the line-30 fix. -/
def c2Mid : String := "\n\n\n\n\n\n\n\n\ndef f(a=[]):\n    pass\n\n\n\n\n\n\n\n\n\n\n\n\n\n\n\n\n\n\ndef g(b=None):\n    if b is None:\n        b = []\n    pass\n"

/-- The C2 file after both fixes. -/
def c2Final : String := "\n\n\n\n\n\n\n\n\ndef f(a=None):\n    if a is None:\n        a = []\n    pass\n\n\n\n\n\n\n\n\n\n\n\n\n\n\n\n\n\n\ndef g(b=None):\n    if b is None:\n        b = []\n    pass\n"

/-- Parse oracle of the C2 scenario: the trees of c2Src and of c2Mid. -/
def c2Parse (s : String) : Option PyModule :=
  if s = c2Src then
    some [⟨10, ⟨[], ["a"], [.listE 0 ⟨10, 8, 10, 10⟩], [], []⟩⟩,
          ⟨30, ⟨[], ["b"], [.listE 0 ⟨30, 8, 30, 10⟩], [], []⟩⟩]
  else if s = c2Mid then
    some [⟨10, ⟨[], ["a"], [.listE 0 ⟨10, 8, 10, 10⟩], [], []⟩⟩,
          ⟨30, ⟨[], ["b"], [.otherE], [], []⟩⟩]
  else none

/-- Single-declaration file of the C2 drift-retry scenario. -/
def c2DriftSrc : String := "def h(c=[]):\n    pass\n"

/-- Parse oracle of the drift scenario. -/
def c2DriftParse (s : String) : Option PyModule :=
  if s = c2DriftSrc then some [⟨1, ⟨[], ["c"], [.listE 0 ⟨1, 8, 1, 10⟩], [], []⟩⟩]
  else none

/-- Claim C2: the driver sorts each file's actions in descending line_start
order (first conjunct, for every action list); on the two-declaration file
both actions are applied correctly, the line-30 one first (recorded action
lines [30, 10] despite ascending input order); and a recorded line that has
drifted by -2 is recovered through the symmetric retry window, the recorded
line becoming base plus offset. -/
theorem C2_descending_order_and_drift :
    (∀ actions : List RescueAction,
      (pyStableSort (fun a b => decide ((-a.line_start : Int) ≤ -b.line_start)) actions).Pairwise
        (fun a b => b.line_start ≤ a.line_start)) ∧
    apply_fixes_to_file c2Parse "two.py" true c2Src
      [mkMutableDefaultAction "two.py" 10, mkMutableDefaultAction "two.py" 30] false =
      .ok ⟨2, [], c2Final, true, [30, 10]⟩ ∧
    apply_fixes_to_file c2DriftParse "drift.py" true c2DriftSrc
      [mkMutableDefaultAction "drift.py" 3] false =
      .ok ⟨1, [], "def h(c=None):\n    if c is None:\n        c = []\n    pass\n", true, [1]⟩ := by
  refine ⟨?_, rfl, rfl⟩
  intro actions
  have htot : ∀ a b : RescueAction,
      (decide ((-a.line_start : Int) ≤ -b.line_start)) = false →
      (decide ((-b.line_start : Int) ≤ -a.line_start)) = true := by
    intro a b h
    simp only [decide_eq_false_iff_not, not_le] at h
    simp only [decide_eq_true_eq]
    omega
  have htr : ∀ a b c : RescueAction,
      (decide ((-a.line_start : Int) ≤ -b.line_start)) = true →
      (decide ((-b.line_start : Int) ≤ -c.line_start)) = true →
      (decide ((-a.line_start : Int) ≤ -c.line_start)) = true := by
    intro a b c h1 h2
    simp only [decide_eq_true_eq] at h1 h2 ⊢
    omega
  refine (pairwise_pyStableSort htot htr actions).imp ?_
  intro a b h
  simp only [decide_eq_true_eq] at h
  omega

/-- Claim C4 (code bug): when locate yields nothing at the recorded line and
at every offset of the retry window, the driver records no error (the errors
list stays empty — the only error the function ever records is the missing
file) although it does continue with the remaining actions: in the second
run the unlocatable line-9 action is skipped silently and the line-1 action
is still applied, with applied = 1 and errors = []. -/
theorem C4_locate_failure_silently_skipped :
    apply_fixes_to_file (fun s => if s = "x = 1\n" then some [] else none) "m.py" true
      "x = 1\n" [mkMutableDefaultAction "m.py" 1] false =
      .ok ⟨0, [], "x = 1\n", false, [1]⟩ ∧
    apply_fixes_to_file
      (fun s => if s = "def g(a=[]):\n    pass\n" then
        some [⟨1, ⟨[], ["a"], [.listE 0 ⟨1, 8, 1, 10⟩], [], []⟩⟩] else none) "n.py" true
      "def g(a=[]):\n    pass\n"
      [mkMutableDefaultAction "n.py" 1, mkMutableDefaultAction "n.py" 9] false =
      .ok ⟨1, [], "def g(a=None):\n    if a is None:\n        a = []\n    pass\n", true, [9, 1]⟩ := by
  exact ⟨rfl, rfl⟩

/-!  Claim C9: rule-identifier resolution. -/

/-- Claim C9 (amended): the action's rule_id is the finding's rule_id when
that is present and non-empty, and the synthesized upper-cased
type-plus-UNKNOWN string when it is absent or empty (the source uses Python
or, for which the empty string is as falsy as the absent value); the
action's (action_type, safety_level) pair is the taxonomy mapping of the
resolved rule_id, which defaults to (FLAG, MANUAL) for every rule_id not in
the table; and the plan creates exactly one action per finding, so no
finding is dropped. -/
theorem C9_rule_resolution (f : Finding) (n : Nat) (r : RunResult) :
    (create_action_from_finding f n).rule_id =
      (match f.rule_id with
       | some s => if s = "" then pyUpper f.type ++ "_UNKNOWN" else s
       | none => pyUpper f.type ++ "_UNKNOWN") ∧
    ((create_action_from_finding f n).action_type,
      (create_action_from_finding f n).safety_level) =
      get_action_mapping (create_action_from_finding f n).rule_id ∧
    (∀ rule_id : String, RULE_ACTION_MAP.lookup rule_id = none →
      get_action_mapping rule_id = (ActionType.FLAG, SafetyLevel.MANUAL)) ∧
    (create_rescue_plan_actions r).length = r.findings.length := by
  refine ⟨?_, rfl, ?_, ?_⟩
  · cases h : f.rule_id with
    | none => simp [create_action_from_finding, pyOrStr, h]
    | some str => by_cases hs : str = "" <;> simp [create_action_from_finding, pyOrStr, h, hs]
  · intro rule_id h
    simp [get_action_mapping, h]
  · simp [create_rescue_plan_actions, List.length_map, pyEnumerate_length, pyStableSort_length]

/-- Witness for C9: a taxonomy miss resolves to (FLAG, MANUAL), and a
present non-empty rule_id is taken verbatim. -/
theorem C9_rule_resolution_witness :
    get_action_mapping "NO_SUCH_RULE_ID" = (ActionType.FLAG, SafetyLevel.MANUAL) ∧
    (create_action_from_finding
      ⟨"F2", "global_state", "low", "m", ⟨"p.py", 1, 1⟩, 1,
        none, [("rule_id", "GST_MUTABLE_DEFAULT_001")]⟩ 0).rule_id =
      "GST_MUTABLE_DEFAULT_001" := by
  constructor
  · exact (C9_rule_resolution
      ⟨"F2", "global_state", "low", "m", ⟨"p.py", 1, 1⟩, 1, none, []⟩ 0
      ⟨"run_result_v1", ⟨"", "", "", ""⟩, [], [], []⟩).2.2.1 "NO_SUCH_RULE_ID" rfl
  · rw [(C9_rule_resolution
      ⟨"F2", "global_state", "low", "m", ⟨"p.py", 1, 1⟩, 1,
        none, [("rule_id", "GST_MUTABLE_DEFAULT_001")]⟩ 0
      ⟨"run_result_v1", ⟨"", "", "", ""⟩, [], [], []⟩).1]
    rfl

/-- Counterexample for C9: a finding whose metadata carries the rule_id slot
with the empty string — the rule_id is present, so the claim as stated keeps
it, but the code synthesizes the type-derived identifier because the Python
or-expression treats the empty string as absent. -/
theorem C9_empty_rule_id_counterexample :
    (Finding.rule_id
      ⟨"F1", "dead_code", "low", "m", ⟨"a.py", 3, 3⟩, 1/2, none, [("rule_id", "")]⟩) =
      some "" ∧
    (create_action_from_finding
      ⟨"F1", "dead_code", "low", "m", ⟨"a.py", 3, 3⟩, 1/2, none, [("rule_id", "")]⟩ 0).rule_id =
      "DEAD_CODE_UNKNOWN" ∧
    ("DEAD_CODE_UNKNOWN" : String) ≠ "" := by
  refine ⟨rfl, rfl, by decide⟩

/-!  Claim C3: the composite priority ordering with input-order tiebreak. -/

/-- Shifting the enumeration start by one shifts every index. -/
theorem pyEnumerate_succ (k : Nat) (l : List α) :
    pyEnumerate (k + 1) l = (pyEnumerate k l).map (fun p => (p.1 + 1, p.2)) := by
  induction l generalizing k with
  | nil => rfl
  | cons x xs ih => simp [pyEnumerate, ih]

/-- Every index produced by pyEnumerate is at least the start. -/
theorem pyEnumerate_fst_ge {q : Nat × α} :
    ∀ {m : Nat} {l : List α}, q ∈ pyEnumerate m l → m ≤ q.1 := by
  intro m l
  induction l generalizing m with
  | nil => intro h; simp [pyEnumerate] at h
  | cons x xs ih =>
    intro h
    rcases List.mem_cons.mp h with h1 | h1
    · simp [h1]
    · exact Nat.le_of_succ_le (ih h1)

/-- The indices of pyEnumerate are strictly increasing. -/
theorem pyEnumerate_fst_lt (m : Nat) (l : List α) :
    (pyEnumerate m l).Pairwise (fun p q => p.1 < q.1) := by
  induction l generalizing m with
  | nil => exact List.Pairwise.nil
  | cons x xs ih =>
    refine List.Pairwise.cons ?_ (ih (m + 1))
    intro q hq
    exact Nat.lt_of_succ_le (pyEnumerate_fst_ge hq)

/-- Index shifts do not change the tie-broken comparison. -/
theorem keyIdxLe_shift (p q : Nat × Finding) :
    keyIdxLe (p.1 + 1, p.2) (q.1 + 1, q.2) = keyIdxLe p q := by
  simp only [keyIdxLe, decide_eq_decide]
  rw [Prod.Lex.le_iff, Prod.Lex.le_iff]
  simp [Nat.add_le_add_iff_right]

/-- Insertion commutes with an index shift. -/
theorem insertLe_keyIdx_shift (p : Nat × Finding) :
    ∀ L : List (Nat × Finding),
    insertLe keyIdxLe (p.1 + 1, p.2) (L.map (fun q => (q.1 + 1, q.2))) =
      (insertLe keyIdxLe p L).map (fun q => (q.1 + 1, q.2)) := by
  intro L
  induction L with
  | nil => rfl
  | cons y ys ih =>
    simp only [List.map_cons, insertLe, keyIdxLe_shift p y]
    by_cases hc : keyIdxLe p y = true
    · simp [hc]
    · simp [hc, ih]

/-- The stable sort commutes with an index shift. -/
theorem pyStableSort_keyIdx_shift :
    ∀ L : List (Nat × Finding),
    pyStableSort keyIdxLe (L.map (fun q => (q.1 + 1, q.2))) =
      (pyStableSort keyIdxLe L).map (fun q => (q.1 + 1, q.2)) := by
  intro L
  induction L with
  | nil => rfl
  | cons x xs ih =>
    simp only [List.map_cons, pyStableSort, ih]
    exact insertLe_keyIdx_shift x (pyStableSort keyIdxLe xs)

/-- Inserting at index zero agrees with inserting the bare finding under the
plain key comparison, whatever the indices in the list. -/
theorem insertLe_zero_snd (x : Finding) :
    ∀ L : List (Nat × Finding),
    (insertLe keyIdxLe (0, x) L).map Prod.snd = insertLe findingLe x (L.map Prod.snd) := by
  intro L
  induction L with
  | nil => rfl
  | cons y ys ih =>
    have hkey : keyIdxLe (0, x) y = findingLe x y.2 := by
      simp only [keyIdxLe, findingLe, decide_eq_decide]
      rw [Prod.Lex.le_iff]
      constructor
      · rintro (h | ⟨h, _⟩)
        · exact le_of_lt h
        · exact le_of_eq h
      · intro h
        rcases lt_or_eq_of_le h with h | h
        · exact Or.inl h
        · exact Or.inr ⟨h, Nat.zero_le _⟩
    simp only [insertLe, hkey, List.map_cons]
    by_cases hc : findingLe x y.2 = true
    · simp [hc]
    · simp [hc, ih]

/-- The code's sort of the findings is the projection of the tie-broken sort
of the enumerated findings. -/
theorem pyStableSort_enum_snd :
    ∀ l : List Finding,
    pyStableSort findingLe l = (pyStableSort keyIdxLe (pyEnumerate 0 l)).map Prod.snd := by
  intro l
  induction l with
  | nil => rfl
  | cons x xs ih =>
    have h1 : pyEnumerate 0 (x :: xs) =
        (0, x) :: (pyEnumerate 0 xs).map (fun q => (q.1 + 1, q.2)) := by
      simp [pyEnumerate, pyEnumerate_succ]
    rw [h1, pyStableSort, pyStableSort, pyStableSort_keyIdx_shift, insertLe_zero_snd,
      List.map_map]
    have h2 : (Prod.snd ∘ fun q : Nat × Finding => (q.1 + 1, q.2)) = Prod.snd := by
      funext q; rfl
    rw [h2, ← ih]

/-- Claim C3: the plan's actions are the findings sorted by the composite
key (severity rank descending, truncated confidence-times-100 descending,
path ascending, line ascending — packaged in keyIdxLe as a lexicographic
order), with remaining ties broken by original input position: the sorted
enumerated list is a permutation of the enumerated input and is pairwise
strictly increasing in the tie-broken order (which pins it down uniquely),
and the actions are created from it in order. -/
theorem C3_priority_ordering (r : RunResult) :
    create_rescue_plan_actions r =
      (pyEnumerate 0 ((pyStableSort keyIdxLe (pyEnumerate 0 r.findings)).map Prod.snd)).map
        (fun p => create_action_from_finding p.2 p.1) ∧
    List.Perm (pyStableSort keyIdxLe (pyEnumerate 0 r.findings)) (pyEnumerate 0 r.findings) ∧
    (pyStableSort keyIdxLe (pyEnumerate 0 r.findings)).Pairwise keyIdxLt := by
  refine ⟨?_, pyStableSort_perm _ _, ?_⟩
  · simp only [create_rescue_plan_actions, pyStableSort_enum_snd]
  · have htot : ∀ a b : Nat × Finding, keyIdxLe a b = false → keyIdxLe b a = true := by
      intro a b h
      simp only [keyIdxLe, decide_eq_false_iff_not, not_le] at h
      simp only [keyIdxLe, decide_eq_true_eq]
      exact le_of_lt h
    have htr : ∀ a b c : Nat × Finding,
        keyIdxLe a b = true → keyIdxLe b c = true → keyIdxLe a c = true := by
      intro a b c h1 h2
      simp only [keyIdxLe, decide_eq_true_eq] at h1 h2 ⊢
      exact le_trans h1 h2
    have hle := pairwise_pyStableSort htot htr (pyEnumerate 0 r.findings)
    have hne0 : (pyEnumerate 0 r.findings).Pairwise
        (fun p q : Nat × Finding => p.1 ≠ q.1) :=
      (pyEnumerate_fst_lt 0 r.findings).imp (fun h => Nat.ne_of_lt h)
    have hne : (pyStableSort keyIdxLe (pyEnumerate 0 r.findings)).Pairwise
        (fun p q : Nat × Finding => p.1 ≠ q.1) :=
      ((pyStableSort_perm keyIdxLe (pyEnumerate 0 r.findings)).pairwise_iff
        (fun {p q} h => Ne.symm h)).mpr hne0
    refine (hle.and hne).imp ?_
    intro p q h
    rcases h with ⟨h1, h2⟩
    simp only [keyIdxLe, decide_eq_true_eq] at h1
    refine lt_of_le_of_ne h1 ?_
    intro he
    exact h2 (congrArg (fun z => (ofLex z).2) he)

/-!  Claim C8: loader rejection and defaults. -/

/-- Reduction of a bind on an Except success value. -/
theorem ok_bind (a : α) (f : α → Except ε β) :
    (Except.ok a : Except ε α) >>= f = f a := rfl

/-- A well-typed optional string field loads, to the default when absent. -/
theorem jGetStrD_wt {obj : JObj} {k : String} (d : String)
    (h : wtStr (jGet obj k) = true) :
    ∃ s, jGetStrD obj k d = .ok s ∧ (jGet obj k = none → s = d) := by
  cases hv : jGet obj k with
  | none => exact ⟨d, by simp [jGetStrD, hv], fun _ => rfl⟩
  | some v =>
    rw [hv] at h
    cases v with
    | jstr str => exact ⟨str, by simp [jGetStrD, hv], by simp⟩
    | jnull => simp [wtStr] at h
    | jbool b => simp [wtStr] at h
    | jnum q => simp [wtStr] at h
    | jarr l => simp [wtStr] at h
    | jobj o => simp [wtStr] at h

/-- A well-typed optional integer field loads, to the default when absent. -/
theorem jGetIntD_wt {obj : JObj} {k : String} (d : Int)
    (h : wtInt (jGet obj k) = true) :
    ∃ i, jGetIntD obj k d = .ok i ∧ (jGet obj k = none → i = d) := by
  cases hv : jGet obj k with
  | none => exact ⟨d, by simp [jGetIntD, hv], fun _ => rfl⟩
  | some v =>
    rw [hv] at h
    cases v with
    | jnum q =>
      have hden : q.den = 1 := by simpa [wtInt] using h
      exact ⟨q.num, by simp [jGetIntD, hv, hden], by simp⟩
    | jnull => simp [wtInt] at h
    | jbool b => simp [wtInt] at h
    | jstr str => simp [wtInt] at h
    | jarr l => simp [wtInt] at h
    | jobj o => simp [wtInt] at h

/-- A well-typed optional numeric field loads. -/
theorem jGetNumD_wt {obj : JObj} {k : String} (d : ℚ)
    (h : wtNum (jGet obj k) = true) :
    ∃ q, jGetNumD obj k d = .ok q ∧ (jGet obj k = none → q = d) := by
  cases hv : jGet obj k with
  | none => exact ⟨d, by simp [jGetNumD, hv], fun _ => rfl⟩
  | some v =>
    rw [hv] at h
    cases v with
    | jnum q => exact ⟨q, by simp [jGetNumD, hv], by simp⟩
    | jnull => simp [wtNum] at h
    | jbool b => simp [wtNum] at h
    | jstr str => simp [wtNum] at h
    | jarr l => simp [wtNum] at h
    | jobj o => simp [wtNum] at h

/-- A well-typed optional nullable-string field loads. -/
theorem jGetOptStr_wt {obj : JObj} {k : String}
    (h : wtOptStr (jGet obj k) = true) :
    ∃ o, jGetOptStr obj k = .ok o := by
  cases hv : jGet obj k with
  | none => exact ⟨none, by simp [jGetOptStr, hv]⟩
  | some v =>
    rw [hv] at h
    cases v with
    | jnull => exact ⟨none, by simp [jGetOptStr, hv]⟩
    | jstr str => exact ⟨some str, by simp [jGetOptStr, hv]⟩
    | jbool b => simp [wtOptStr] at h
    | jnum q => simp [wtOptStr] at h
    | jarr l => simp [wtOptStr] at h
    | jobj o => simp [wtOptStr] at h

/-- A well-typed optional object field loads, to the empty object when
absent. -/
theorem jGetObjD_wt {obj : JObj} {k : String}
    (h : wtObj (jGet obj k) = true) :
    ∃ o, jGetObjD obj k = .ok o ∧ (jGet obj k = none → o = []) := by
  cases hv : jGet obj k with
  | none => exact ⟨[], by simp [jGetObjD, hv], fun _ => rfl⟩
  | some v =>
    rw [hv] at h
    cases v with
    | jobj o => exact ⟨o, by simp [jGetObjD, hv], by simp⟩
    | jnull => simp [wtObj] at h
    | jbool b => simp [wtObj] at h
    | jnum q => simp [wtObj] at h
    | jstr str => simp [wtObj] at h
    | jarr l => simp [wtObj] at h

/-- An all-string object converts to the string map of the model. -/
theorem jStrFields_wt :
    ∀ {o : JObj}, (o.all (fun kv => match kv.2 with | .jstr _ => true | _ => false)) = true →
    ∃ m, jStrFields o = .ok m := by
  intro o
  induction o with
  | nil => intro _; exact ⟨[], rfl⟩
  | cons kv rest ih =>
    intro h
    simp only [List.all_cons, Bool.and_eq_true] at h
    obtain ⟨h1, h2⟩ := h
    obtain ⟨m, hm⟩ := ih h2
    obtain ⟨k, v⟩ := kv
    cases v with
    | jstr str => exact ⟨(k, str) :: m, by simp [jStrFields, hm, ok_bind]⟩
    | jnull => simp at h1
    | jbool b => simp at h1
    | jnum q => simp at h1
    | jarr l => simp at h1
    | jobj oo => simp at h1

/-- A well-typed metadata field loads. -/
theorem jGetStrMapD_wt {obj : JObj} {k : String}
    (h : wtStrMap (jGet obj k) = true) :
    ∃ m, jGetStrMapD obj k = .ok m := by
  cases hv : jGet obj k with
  | none => exact ⟨[], by simp [jGetStrMapD, hv]⟩
  | some v =>
    rw [hv] at h
    cases v with
    | jobj o =>
      obtain ⟨m, hm⟩ := jStrFields_wt (by simpa [wtStrMap] using h)
      exact ⟨m, by simp [jGetStrMapD, hv, hm]⟩
    | jnull => simp [wtStrMap] at h
    | jbool b => simp [wtStrMap] at h
    | jnum q => simp [wtStrMap] at h
    | jstr str => simp [wtStrMap] at h
    | jarr l => simp [wtStrMap] at h

/-- A well-typed location object parses, with zero defaults for missing line
numbers. -/
theorem parse_location_wt {ld : JObj} (h : wtLocObj ld = true) :
    ∃ l : Location, parse_location ld = .ok l ∧
      (jGet ld "path" = none → l.path = "") ∧
      (jGet ld "line_start" = none → l.line_start = 0) ∧
      (jGet ld "line_end" = none → l.line_end = 0) := by
  simp only [wtLocObj, Bool.and_eq_true] at h
  obtain ⟨⟨hp, hls⟩, hle⟩ := h
  obtain ⟨p, hpe, hpd⟩ := jGetStrD_wt "" hp
  obtain ⟨a, hae, had⟩ := jGetIntD_wt 0 hls
  obtain ⟨b, hbe, hbd⟩ := jGetIntD_wt 0 hle
  refine ⟨⟨p, a, b⟩, ?_, hpd, had, hbd⟩
  simp [parse_location, hpe, hae, hbe, ok_bind]

/-- A well-typed finding object parses, with the info default for a missing
severity. -/
theorem parse_finding_wt {fd : JObj} (h : wtFindingObj fd = true) :
    ∃ f : Finding, parse_finding fd = .ok f ∧
      (jGet fd "severity" = none → f.severity = "info") ∧
      (jGet fd "confidence" = none → f.confidence = 0) := by
  simp only [wtFindingObj, Bool.and_eq_true] at h
  obtain ⟨⟨⟨⟨⟨⟨⟨hid, hty⟩, hsev⟩, hmsg⟩, hloc⟩, hconf⟩, hsnip⟩, hmeta⟩ := h
  obtain ⟨vid, hide, _⟩ := jGetStrD_wt "" hid
  obtain ⟨vty, htye, _⟩ := jGetStrD_wt "" hty
  obtain ⟨vsev, hseve, hsevd⟩ := jGetStrD_wt "info" hsev
  obtain ⟨vmsg, hmsge, _⟩ := jGetStrD_wt "" hmsg
  have hlo : ∃ lo, jGetObjD fd "location" = .ok lo ∧ wtLocObj lo = true := by
    cases hv : jGet fd "location" with
    | none => exact ⟨[], by simp [jGetObjD, hv], rfl⟩
    | some v =>
      rw [hv] at hloc
      cases v with
      | jobj o => exact ⟨o, by simp [jGetObjD, hv], hloc⟩
      | jnull => simp at hloc
      | jbool b => simp at hloc
      | jnum q => simp at hloc
      | jstr str => simp at hloc
      | jarr l => simp at hloc
  obtain ⟨lo, hloe, hlowt⟩ := hlo
  obtain ⟨l, hle, _, _, _⟩ := parse_location_wt hlowt
  obtain ⟨vconf, hconfe, hconfd⟩ := jGetNumD_wt 0 hconf
  obtain ⟨vsnip, hsnipe⟩ := jGetOptStr_wt hsnip
  obtain ⟨vmeta, hmetae⟩ := jGetStrMapD_wt hmeta
  refine ⟨⟨vid, vty, vsev, vmsg, l, vconf, vsnip, vmeta⟩, ?_, hsevd, hconfd⟩
  simp [parse_finding, hide, htye, hseve, hmsge, hloe, hle, hconfe, hsnipe, hmetae, ok_bind]

/-- A well-typed signal object parses. -/
theorem parse_signal_wt {sd : JObj} (h : wtSignalObj sd = true) :
    ∃ sg : Signal, parse_signal sd = .ok sg := by
  simp only [wtSignalObj, Bool.and_eq_true] at h
  obtain ⟨⟨⟨⟨hsid, hty⟩, hrisk⟩, hurg⟩, hev⟩ := h
  obtain ⟨v1, h1e, _⟩ := jGetStrD_wt "" hsid
  obtain ⟨v2, h2e, _⟩ := jGetStrD_wt "" hty
  obtain ⟨v3, h3e, _⟩ := jGetStrD_wt "green" hrisk
  obtain ⟨v4, h4e, _⟩ := jGetStrD_wt "optional" hurg
  obtain ⟨v5, h5e, _⟩ := jGetObjD_wt hev
  exact ⟨⟨v1, v2, v3, v4, v5⟩, by simp [parse_signal, h1e, h2e, h3e, h4e, h5e, ok_bind]⟩

/-- A well-typed run-metadata object parses. -/
theorem parse_run_metadata_wt {rd : JObj} (h : wtRunObj rd = true) :
    ∃ rm : RunMetadata, parse_run_metadata rd = .ok rm := by
  simp only [wtRunObj, Bool.and_eq_true] at h
  obtain ⟨⟨⟨h1, h2⟩, h3⟩, h4⟩ := h
  obtain ⟨v1, h1e, _⟩ := jGetStrD_wt "" h1
  obtain ⟨v2, h2e, _⟩ := jGetStrD_wt "" h2
  obtain ⟨v3, h3e, _⟩ := jGetStrD_wt "" h3
  obtain ⟨v4, h4e, _⟩ := jGetStrD_wt "" h4
  exact ⟨⟨v1, v2, v3, v4⟩, by simp [parse_run_metadata, h1e, h2e, h3e, h4e, ok_bind]⟩

/-- A list of well-typed finding objects parses elementwise. -/
theorem parseFindingList_wt :
    ∀ {l : List JValue},
    (l.all (fun v => match v with | .jobj o => wtFindingObj o | _ => false)) = true →
    ∃ fs, parseFindingList l = .ok fs := by
  intro l
  induction l with
  | nil => intro _; exact ⟨[], rfl⟩
  | cons v rest ih =>
    intro h
    simp only [List.all_cons, Bool.and_eq_true] at h
    obtain ⟨h1, h2⟩ := h
    obtain ⟨fs, hfs⟩ := ih h2
    cases v with
    | jobj o =>
      obtain ⟨f, hf, _, _⟩ := parse_finding_wt h1
      exact ⟨f :: fs, by simp [parseFindingList, hf, hfs, ok_bind]⟩
    | jnull => simp at h1
    | jbool b => simp at h1
    | jnum q => simp at h1
    | jstr str => simp at h1
    | jarr ll => simp at h1

/-- A list of well-typed signal objects parses elementwise. -/
theorem parseSignalList_wt :
    ∀ {l : List JValue},
    (l.all (fun v => match v with | .jobj o => wtSignalObj o | _ => false)) = true →
    ∃ ss, parseSignalList l = .ok ss := by
  intro l
  induction l with
  | nil => intro _; exact ⟨[], rfl⟩
  | cons v rest ih =>
    intro h
    simp only [List.all_cons, Bool.and_eq_true] at h
    obtain ⟨h1, h2⟩ := h
    obtain ⟨ss, hss⟩ := ih h2
    cases v with
    | jobj o =>
      obtain ⟨sg, hsg⟩ := parse_signal_wt h1
      exact ⟨sg :: ss, by simp [parseSignalList, hsg, hss, ok_bind]⟩
    | jnull => simp at h1
    | jbool b => simp at h1
    | jnum q => simp at h1
    | jstr str => simp at h1
    | jarr ll => simp at h1

/-- Claim C8: a document whose schema_version is anything but the exact
marker string loads to the absent result (Python None) without raising; a
marker-carrying document whose present fields are well-typed always parses,
and a missing findings_raw array becomes the empty findings list; a missing
severity in a finding object becomes info; missing line numbers in a
location object become 0. -/
theorem C8_loader_reject_and_defaults (data fd ld : JObj) :
    (jGet data "schema_version" ≠ some (.jstr "run_result_v1") →
      load_run_result data = .ok none) ∧
    (jGet data "schema_version" = some (.jstr "run_result_v1") → wtDoc data = true →
      ∃ r : RunResult, load_run_result data = .ok (some r) ∧
        (jGet data "findings_raw" = none → r.findings = [])) ∧
    (wtFindingObj fd = true → ∃ f : Finding, parse_finding fd = .ok f ∧
      (jGet fd "severity" = none → f.severity = "info")) ∧
    (wtLocObj ld = true → ∃ l : Location, parse_location ld = .ok l ∧
      (jGet ld "line_start" = none → l.line_start = 0) ∧
      (jGet ld "line_end" = none → l.line_end = 0)) := by
  refine ⟨?_, ?_, ?_, ?_⟩
  · intro hne
    unfold load_run_result
    cases hv : jGet data "schema_version" with
    | none => rfl
    | some v =>
      cases v with
      | jstr str =>
        have : str ≠ "run_result_v1" := by
          intro he
          exact hne (by rw [hv, he])
        simp [this]
      | jnull => rfl
      | jbool b => rfl
      | jnum q => rfl
      | jarr l => rfl
      | jobj o => rfl
  · intro hmark hwt
    simp only [wtDoc, Bool.and_eq_true] at hwt
    obtain ⟨⟨⟨hrun, hraw⟩, hsig⟩, hsum⟩ := hwt
    have hrune : ∃ ro, jGetObjD data "run" = .ok ro ∧ wtRunObj ro = true := by
      cases hv : jGet data "run" with
      | none => exact ⟨[], by simp [jGetObjD, hv], rfl⟩
      | some v =>
        rw [hv] at hrun
        cases v with
        | jobj o => exact ⟨o, by simp [jGetObjD, hv], hrun⟩
        | jnull => simp at hrun
        | jbool b => simp at hrun
        | jnum q => simp at hrun
        | jstr str => simp at hrun
        | jarr l => simp at hrun
    have hrawe : ∃ fr, jGetArrD data "findings_raw" = .ok fr ∧
        (fr.all (fun v => match v with | .jobj o => wtFindingObj o | _ => false)) = true ∧
        (jGet data "findings_raw" = none → fr = []) := by
      cases hv : jGet data "findings_raw" with
      | none => exact ⟨[], by simp [jGetArrD, hv], rfl, fun _ => rfl⟩
      | some v =>
        rw [hv] at hraw
        cases v with
        | jarr l => exact ⟨l, by simp [jGetArrD, hv], hraw, by simp⟩
        | jnull => simp at hraw
        | jbool b => simp at hraw
        | jnum q => simp at hraw
        | jstr str => simp at hraw
        | jobj o => simp at hraw
    have hsige : ∃ sr, jGetArrD data "signals_snapshot" = .ok sr ∧
        (sr.all (fun v => match v with | .jobj o => wtSignalObj o | _ => false)) = true := by
      cases hv : jGet data "signals_snapshot" with
      | none => exact ⟨[], by simp [jGetArrD, hv], rfl⟩
      | some v =>
        rw [hv] at hsig
        cases v with
        | jarr l => exact ⟨l, by simp [jGetArrD, hv], hsig⟩
        | jnull => simp at hsig
        | jbool b => simp at hsig
        | jnum q => simp at hsig
        | jstr str => simp at hsig
        | jobj o => simp at hsig
    obtain ⟨ro, hroe, hrowt⟩ := hrune
    obtain ⟨fr, hfre, hfrwt, hfrd⟩ := hrawe
    obtain ⟨sr, hsre, hsrwt⟩ := hsige
    obtain ⟨su, hsue, _⟩ := jGetObjD_wt hsum
    obtain ⟨rm, hrme⟩ := parse_run_metadata_wt hrowt
    obtain ⟨fs, hfse⟩ := parseFindingList_wt hfrwt
    obtain ⟨ss, hsse⟩ := parseSignalList_wt hsrwt
    refine ⟨⟨"run_result_v1", rm, fs, ss, su⟩, ?_, ?_⟩
    · unfold load_run_result
      rw [hmark]
      simp [hroe, hfre, hsre, hsue, hrme, hfse, hsse, ok_bind]
    · intro hnone
      have : fr = [] := hfrd hnone
      rw [this] at hfse
      cases hfse
      rfl
  · intro h
    obtain ⟨f, hf, hsev, _⟩ := parse_finding_wt h
    exact ⟨f, hf, hsev⟩
  · intro h
    obtain ⟨l, hl, _, hls, hle⟩ := parse_location_wt h
    exact ⟨l, hl, hls, hle⟩

/-- Witness for C8: a document with a wrong marker is rejected as the absent
result; the minimal marker-only document loads with no findings; the empty
finding object parses with severity info; the empty location object parses
with zero lines. -/
theorem C8_loader_witness :
    load_run_result [("schema_version", .jstr "other_schema")] = .ok none ∧
    (∃ r : RunResult,
      load_run_result [("schema_version", .jstr "run_result_v1")] = .ok (some r) ∧
        r.findings = []) ∧
    (∃ f : Finding, parse_finding [] = .ok f ∧ f.severity = "info") ∧
    (∃ l : Location, parse_location [] = .ok l ∧ l.line_start = 0 ∧ l.line_end = 0) := by
  have h := C8_loader_reject_and_defaults [("schema_version", .jstr "run_result_v1")] [] []
  refine ⟨?_, ?_, ?_, ?_⟩
  · exact (C8_loader_reject_and_defaults [("schema_version", .jstr "other_schema")] [] []).1
      (by simp [jGet])
  · obtain ⟨r, hr, hfe⟩ := h.2.1 (by rfl) (by rfl)
    exact ⟨r, hr, hfe (by rfl)⟩
  · obtain ⟨f, hf, hsev⟩ := h.2.2.1 (by rfl)
    exact ⟨f, hf, hsev (by rfl)⟩
  · obtain ⟨l, hl, hls, hle⟩ := h.2.2.2 (by rfl)
    exact ⟨l, hl, hls (by rfl), hle (by rfl)⟩

/-- Witness for C6: an empty parameter list and an out-of-range line both
produce the none result on a concrete file. -/
theorem C6_rewrite_none_iff_witness :
    apply_mutable_default_fix "def foo(items=[]):\n    pass\n" 1 [] = none ∧
    apply_mutable_default_fix "def foo(items=[]):\n    pass\n" 999
      [("items", "[]", "list")] = none := by
  constructor
  · exact (C6_rewrite_none_iff "def foo(items=[]):\n    pass\n" 1 []).mpr (Or.inl rfl)
  · exact (C6_rewrite_none_iff "def foo(items=[]):\n    pass\n" 999
      [("items", "[]", "list")]).mpr (Or.inr (Or.inr (by decide)))

end CodeRescue
